import Mathlib

/-!
Verification of the snow-evolution imaging pipeline (`RGB-NDSI.py`) and its
Streamlit viewer (`App.py`).

Modelling conventions:
* A spectral band is a 2D numpy grid; every operation the claims mention
  (min, max, elementwise arithmetic, stacking along the last axis) is
  independent of the 2D shape, so a band is modelled row-major-flattened as a
  `List ℚ` of samples (`ℚ` models the numeric samples; numpy float arithmetic
  on the values appearing here is exact rational arithmetic, except for the
  gamma power, which is modelled in `ℝ` with real exponentiation).
* The file system is modelled by explicit listings: a month directory is a
  name together with the association list of its files and their numeric
  contents; `print` warnings are collected into a list of strings.
* The pipeline is single-threaded and sequential, so loops become folds/maps
  over the (sorted) listing.
-/

namespace RGBNDSI

/-- A band: a single-channel 2D grid of numeric samples, modelled row-major
flattened as a list of rational samples. -/
abbrev Band := List ℚ

/-- An RGB pixel with rational channel values (before gamma correction). -/
abbrev Pix := ℚ × ℚ × ℚ

/-- An RGB pixel with real channel values (after gamma correction). -/
abbrev PixR := ℝ × ℝ × ℝ

/-- `band.min()` of numpy on a nonempty grid: the least sample.
(The empty case is arbitrary: numpy raises there, and every claim about
minima carries a nonemptiness hypothesis.) -/
def bandMinVal : Band → ℚ
  | [] => 0
  | x :: xs => xs.foldl min x

/-- `band.max()` of numpy on a nonempty grid: the greatest sample. -/
def bandMaxVal : Band → ℚ
  | [] => 0
  | x :: xs => xs.foldl max x

/-- `normalize_band` from `src/RGB-NDSI.py` lines 144-146 (redefined
identically at lines 204-206 for the false-color pass):
`band_min, band_max = band.min(), band.max()` then
`(band - band_min) / (band_max - band_min)`, elementwise.
The division is unguarded in the source; in this `ℚ` model a zero divisor
yields `x / 0 = 0` (numpy would emit `nan`/`inf` with a runtime warning). -/
def normalize_band (band : Band) : Band :=
  let band_min := bandMinVal band
  let band_max := bandMaxVal band
  band.map (fun x => (x - band_min) / (band_max - band_min))

/- ### Helper lemmas about foldl-min / foldl-max -/

lemma foldl_min_le_init (xs : List ℚ) (a : ℚ) : xs.foldl min a ≤ a := by
  induction xs generalizing a with
  | nil => simp
  | cons x xs ih =>
    calc (x :: xs).foldl min a = xs.foldl min (min a x) := rfl
    _ ≤ min a x := ih _
    _ ≤ a := min_le_left _ _

lemma foldl_min_le_mem (xs : List ℚ) (a : ℚ) {x : ℚ} (hx : x ∈ xs) :
    xs.foldl min a ≤ x := by
  induction xs generalizing a with
  | nil => cases hx
  | cons y ys ih =>
    rcases List.mem_cons.mp hx with h | h
    · subst h
      calc (x :: ys).foldl min a = ys.foldl min (min a x) := rfl
      _ ≤ min a x := foldl_min_le_init _ _
      _ ≤ x := min_le_right _ _
    · exact ih _ h

lemma init_le_foldl_max (xs : List ℚ) (a : ℚ) : a ≤ xs.foldl max a := by
  induction xs generalizing a with
  | nil => simp
  | cons x xs ih =>
    calc a ≤ max a x := le_max_left _ _
    _ ≤ xs.foldl max (max a x) := ih _
    _ = (x :: xs).foldl max a := rfl

lemma mem_le_foldl_max (xs : List ℚ) (a : ℚ) {x : ℚ} (hx : x ∈ xs) :
    x ≤ xs.foldl max a := by
  induction xs generalizing a with
  | nil => cases hx
  | cons y ys ih =>
    rcases List.mem_cons.mp hx with h | h
    · subst h
      calc x ≤ max a x := le_max_right _ _
      _ ≤ ys.foldl max (max a x) := init_le_foldl_max _ _
      _ = (x :: ys).foldl max a := rfl
    · exact ih _ h

lemma bandMinVal_le_mem {band : Band} {x : ℚ} (hx : x ∈ band) :
    bandMinVal band ≤ x := by
  cases band with
  | nil => cases hx
  | cons y ys =>
    rcases List.mem_cons.mp hx with h | h
    · subst h
      exact foldl_min_le_init _ _
    · exact foldl_min_le_mem _ _ h

lemma mem_le_bandMaxVal {band : Band} {x : ℚ} (hx : x ∈ band) :
    x ≤ bandMaxVal band := by
  cases band with
  | nil => cases hx
  | cons y ys =>
    rcases List.mem_cons.mp hx with h | h
    · subst h
      exact init_le_foldl_max _ _
    · exact mem_le_foldl_max _ _ h

lemma foldl_min_mem (xs : List ℚ) (a : ℚ) :
    xs.foldl min a = a ∨ xs.foldl min a ∈ xs := by
  induction xs generalizing a with
  | nil => exact Or.inl rfl
  | cons x xs ih =>
    have : (x :: xs).foldl min a = xs.foldl min (min a x) := rfl
    rw [this]
    rcases ih (min a x) with h | h
    · rcases min_choice a x with hm | hm
      · exact Or.inl (h.trans hm)
      · exact Or.inr (List.mem_cons.mpr (Or.inl (h.trans hm)))
    · exact Or.inr (List.mem_cons.mpr (Or.inr h))

lemma foldl_max_mem (xs : List ℚ) (a : ℚ) :
    xs.foldl max a = a ∨ xs.foldl max a ∈ xs := by
  induction xs generalizing a with
  | nil => exact Or.inl rfl
  | cons x xs ih =>
    have : (x :: xs).foldl max a = xs.foldl max (max a x) := rfl
    rw [this]
    rcases ih (max a x) with h | h
    · rcases max_choice a x with hm | hm
      · exact Or.inl (h.trans hm)
      · exact Or.inr (List.mem_cons.mpr (Or.inl (h.trans hm)))
    · exact Or.inr (List.mem_cons.mpr (Or.inr h))

lemma bandMinVal_mem {band : Band} (h : band ≠ []) : bandMinVal band ∈ band := by
  cases band with
  | nil => exact absurd rfl h
  | cons x xs =>
    rcases foldl_min_mem xs x with h' | h'
    · exact List.mem_cons.mpr (Or.inl h')
    · exact List.mem_cons.mpr (Or.inr h')

lemma bandMaxVal_mem {band : Band} (h : band ≠ []) : bandMaxVal band ∈ band := by
  cases band with
  | nil => exact absurd rfl h
  | cons x xs =>
    rcases foldl_max_mem xs x with h' | h'
    · exact List.mem_cons.mpr (Or.inl h')
    · exact List.mem_cons.mpr (Or.inr h')

lemma normalize_band_length (band : Band) :
    (normalize_band band).length = band.length := by
  simp [normalize_band]

/-- **C2.** For every band grid with a non-degenerate range,
`normalize_band` computes `(B - min) / (max - min)` elementwise, every output
sample lies in `[0, 1]`, every pixel that held the original minimum maps to
`0`, and every pixel that held the original maximum maps to `1`. -/
theorem normalize_band_nondegenerate_spec (band : Band)
    (hlt : bandMinVal band < bandMaxVal band) :
    normalize_band band =
      band.map (fun x => (x - bandMinVal band) / (bandMaxVal band - bandMinVal band)) ∧
    (∀ y ∈ normalize_band band, 0 ≤ y ∧ y ≤ 1) ∧
    (∀ i : ℕ, ∀ hi : i < band.length,
      (band.getD i 0 = bandMinVal band → (normalize_band band).getD i 0 = 0) ∧
      (band.getD i 0 = bandMaxVal band → (normalize_band band).getD i 0 = 1)) := by
  have hpos : 0 < bandMaxVal band - bandMinVal band := sub_pos.mpr hlt
  have hne : bandMaxVal band - bandMinVal band ≠ 0 := ne_of_gt hpos
  refine ⟨rfl, ?_, ?_⟩
  · intro y hy
    rcases List.mem_map.mp hy with ⟨x, hx, hxy⟩
    subst hxy
    constructor
    · exact div_nonneg (sub_nonneg.mpr (bandMinVal_le_mem hx)) (le_of_lt hpos)
    · rw [div_le_one hpos]
      exact sub_le_sub_right (mem_le_bandMaxVal hx) _
  · intro i hi
    have hi' : i < (normalize_band band).length := by
      rw [normalize_band_length]; exact hi
    have hget : (normalize_band band).getD i 0 =
        (band.getD i 0 - bandMinVal band) / (bandMaxVal band - bandMinVal band) := by
      rw [List.getD_eq_getElem _ _ hi', List.getD_eq_getElem _ _ hi]
      simp [normalize_band]
    constructor
    · intro hmin
      rw [hget, hmin, sub_self, zero_div]
    · intro hmax
      rw [hget, hmax, div_self hne]

/-- Witness for C2 on the concrete band `[0, 2, 1]`. -/
theorem normalize_band_nondegenerate_spec_witness :
    bandMinVal [0, 2, 1] < bandMaxVal [0, 2, 1] ∧
    (normalize_band [0, 2, 1] =
      ([0, 2, 1] : Band).map
        (fun x => (x - bandMinVal [0, 2, 1]) / (bandMaxVal [0, 2, 1] - bandMinVal [0, 2, 1])) ∧
    (∀ y ∈ normalize_band [0, 2, 1], 0 ≤ y ∧ y ≤ 1) ∧
    (∀ i : ℕ, ∀ hi : i < ([0, 2, 1] : Band).length,
      (([0, 2, 1] : Band).getD i 0 = bandMinVal [0, 2, 1] →
        (normalize_band [0, 2, 1]).getD i 0 = 0) ∧
      (([0, 2, 1] : Band).getD i 0 = bandMaxVal [0, 2, 1] →
        (normalize_band [0, 2, 1]).getD i 0 = 1))) :=
  ⟨by decide, normalize_band_nondegenerate_spec [0, 2, 1] (by decide)⟩

/-- **C3.** For every nonempty constant band grid, the divisor `max - min`
computed by `normalize_band` is zero and the unguarded division is applied
anyway: the code has no special case, so `normalize_band` evaluates
`(x - min) / 0` at every pixel.  (The source applies numpy float division,
which emits `nan`/`inf` there; this `ℚ` model totalises `x / 0` as `0`.) -/
theorem normalize_band_constant_unguarded_div (band : Band) (c : ℚ)
    (hne : band ≠ []) (hc : ∀ x ∈ band, x = c) :
    bandMaxVal band - bandMinVal band = 0 ∧
    normalize_band band = band.map (fun x => (x - c) / 0) := by
  have hmin : bandMinVal band = c := hc _ (bandMinVal_mem hne)
  have hmax : bandMaxVal band = c := hc _ (bandMaxVal_mem hne)
  constructor
  · rw [hmin, hmax, sub_self]
  · simp only [normalize_band, hmin, hmax, sub_self]

/-- Witness for C3 on the concrete constant band `[5, 5]`. -/
theorem normalize_band_constant_unguarded_div_witness :
    (([5, 5] : Band) ≠ [] ∧ ∀ x ∈ ([5, 5] : Band), x = 5) ∧
    (bandMaxVal [5, 5] - bandMinVal [5, 5] = 0 ∧
      normalize_band [5, 5] = ([5, 5] : Band).map (fun x => (x - 5) / 0)) :=
  ⟨⟨by decide, by decide⟩,
    normalize_band_constant_unguarded_div [5, 5] 5 (by decide) (by decide)⟩

/- ### Helper lemmas: normalization of an already-normalized band -/

lemma normalize_band_of_minmax (band : Band)
    (h0 : bandMinVal band = 0) (h1 : bandMaxVal band = 1) :
    normalize_band band = band := by
  simp only [normalize_band, h0, h1, sub_zero, div_one, List.map_id']

lemma foldl_min_map (f : ℚ → ℚ) (hf : ∀ a b, f (min a b) = min (f a) (f b))
    (xs : List ℚ) (a : ℚ) : (xs.map f).foldl min (f a) = f (xs.foldl min a) := by
  induction xs generalizing a with
  | nil => rfl
  | cons y ys ih =>
    show (ys.map f).foldl min (min (f a) (f y)) = f (ys.foldl min (min a y))
    rw [← hf, ih]

lemma foldl_max_map (f : ℚ → ℚ) (hf : ∀ a b, f (max a b) = max (f a) (f b))
    (xs : List ℚ) (a : ℚ) : (xs.map f).foldl max (f a) = f (xs.foldl max a) := by
  induction xs generalizing a with
  | nil => rfl
  | cons y ys ih =>
    show (ys.map f).foldl max (max (f a) (f y)) = f (ys.foldl max (max a y))
    rw [← hf, ih]

lemma bandMinVal_map (f : ℚ → ℚ) (hf : ∀ a b, f (min a b) = min (f a) (f b))
    {band : Band} (hne : band ≠ []) :
    bandMinVal (band.map f) = f (bandMinVal band) := by
  cases band with
  | nil => exact absurd rfl hne
  | cons x xs => exact foldl_min_map f hf xs x

lemma bandMaxVal_map (f : ℚ → ℚ) (hf : ∀ a b, f (max a b) = max (f a) (f b))
    {band : Band} (hne : band ≠ []) :
    bandMaxVal (band.map f) = f (bandMaxVal band) := by
  cases band with
  | nil => exact absurd rfl hne
  | cons x xs => exact foldl_max_map f hf xs x

lemma normalize_min_distrib (m M : ℚ) (hpos : 0 < M - m) (a b : ℚ) :
    (min a b - m) / (M - m) = min ((a - m) / (M - m)) ((b - m) / (M - m)) := by
  rw [min_div_div_right (le_of_lt hpos), min_sub_sub_right]

lemma normalize_max_distrib (m M : ℚ) (hpos : 0 < M - m) (a b : ℚ) :
    (max a b - m) / (M - m) = max ((a - m) / (M - m)) ((b - m) / (M - m)) := by
  rw [max_div_div_right (le_of_lt hpos), max_sub_sub_right]

lemma ne_nil_of_minmax_lt {band : Band} (hlt : bandMinVal band < bandMaxVal band) :
    band ≠ [] := by
  intro h
  subst h
  exact absurd hlt (by simp [bandMinVal, bandMaxVal])

lemma bandMinVal_normalize {band : Band} (hlt : bandMinVal band < bandMaxVal band) :
    bandMinVal (normalize_band band) = 0 := by
  have hpos : 0 < bandMaxVal band - bandMinVal band := sub_pos.mpr hlt
  have h := bandMinVal_map
    (fun x => (x - bandMinVal band) / (bandMaxVal band - bandMinVal band))
    (fun a b => normalize_min_distrib _ _ hpos a b) (ne_nil_of_minmax_lt hlt)
  rw [normalize_band]
  rw [h]
  simp

lemma bandMaxVal_normalize {band : Band} (hlt : bandMinVal band < bandMaxVal band) :
    bandMaxVal (normalize_band band) = 1 := by
  have hpos : 0 < bandMaxVal band - bandMinVal band := sub_pos.mpr hlt
  have h := bandMaxVal_map
    (fun x => (x - bandMinVal band) / (bandMaxVal band - bandMinVal band))
    (fun a b => normalize_max_distrib _ _ hpos a b) (ne_nil_of_minmax_lt hlt)
  rw [normalize_band]
  rw [h]
  exact div_self (ne_of_gt hpos)

/-- **C6.** Normalization is idempotent on already-normalized input: a band
whose minimum is `0` and maximum is `1` is returned unchanged, and
equivalently `normalize_band` composed with itself equals `normalize_band`
on every non-degenerate band. -/
theorem normalize_band_idempotent :
    (∀ band : Band, bandMinVal band = 0 → bandMaxVal band = 1 →
      normalize_band band = band) ∧
    (∀ band : Band, bandMinVal band < bandMaxVal band →
      normalize_band (normalize_band band) = normalize_band band) := by
  constructor
  · exact fun band h0 h1 => normalize_band_of_minmax band h0 h1
  · intro band hlt
    exact normalize_band_of_minmax _ (bandMinVal_normalize hlt) (bandMaxVal_normalize hlt)

/-- Witness for C6 on the concrete bands `[0, 1]` (min 0, max 1) and
`[0, 2]` (non-degenerate). -/
theorem normalize_band_idempotent_witness :
    (bandMinVal [0, 1] = 0 ∧ bandMaxVal [0, 1] = 1 ∧
      normalize_band [0, 1] = [0, 1]) ∧
    (bandMinVal [0, 2] < bandMaxVal [0, 2] ∧
      normalize_band (normalize_band [0, 2]) = normalize_band [0, 2]) :=
  ⟨⟨by decide, by decide,
      normalize_band_idempotent.1 [0, 1] (by decide) (by decide)⟩,
    ⟨by decide, normalize_band_idempotent.2 [0, 2] (by decide)⟩⟩

/- ### The multi-band raster and the two composite renderers -/

/-- The per-month multi-band raster written by the Band Compositor: the five
selected Sentinel-2 bands `B2, B3, B4, B8, B11` (line 92) written at
1-indexed stack positions 1..5 (lines 125-128). -/
structure MultiBandRaster where
  band1 : Band
  band2 : Band
  band3 : Band
  band4 : Band
  band5 : Band
deriving DecidableEq

/-- `src.read(i)` of rasterio on a stacked raster: the band at 1-indexed
position `i` (out-of-range reads raise in rasterio; modelled as `[]`,
never exercised by the claims). -/
def MultiBandRaster.read (src : MultiBandRaster) : ℕ → Band
  | 1 => src.band1
  | 2 => src.band2
  | 3 => src.band3
  | 4 => src.band4
  | 5 => src.band5
  | _ => []

/-- `np.clip(v, 0, 1)` on a single sample. -/
def clip01 (x : ℚ) : ℚ := min (max x 0) 1

/-- `apply_brightness_gamma` from `src/RGB-NDSI.py` lines 148-154:
`brightened = np.clip(rgb_image * brightness_factor, 0, 1)` followed by
`corrected = np.power(brightened, 1 / gamma)`, elementwise over the RGB
image.  The float power is modelled by real exponentiation (`Real.rpow`);
its base is always the clipped, hence nonnegative, value, where `rpow`
agrees with numpy `power`. -/
noncomputable def apply_brightness_gamma (rgb_image : List Pix)
    (brightness_factor : ℚ) (gamma : ℚ) : List PixR :=
  rgb_image.map fun p =>
    (((clip01 (p.1 * brightness_factor) : ℚ) : ℝ) ^ ((1 : ℝ) / (gamma : ℝ)),
     ((clip01 (p.2.1 * brightness_factor) : ℚ) : ℝ) ^ ((1 : ℝ) / (gamma : ℝ)),
     ((clip01 (p.2.2 * brightness_factor) : ℚ) : ℝ) ^ ((1 : ℝ) / (gamma : ℝ)))

/-- Calling `apply_brightness_gamma` with Python's declared default
arguments `brightness_factor=1, gamma=2` (line 149). -/
noncomputable def apply_brightness_gamma_default (rgb_image : List Pix) : List PixR :=
  apply_brightness_gamma rgb_image 1 2

/-- `np.stack([r, g, b], axis=-1)`: combine three channel grids into one
grid of pixel triples. -/
def stackRGB (r g b : Band) : List Pix := r.zip (g.zip b)

/-- The true-color rendering of one raster (loop body, lines 162-189):
read bands red=3, green=2, blue=1, normalize each, stack, then apply
brightness/gamma correction with `brightness_factor = 1.2`, `gamma = 2.2`
(lines 177-179).  These are the pixel values passed to `plt.imsave`. -/
noncomputable def trueColorRender (src : MultiBandRaster) : List PixR :=
  let red := src.read 3
  let green := src.read 2
  let blue := src.read 1
  let red_normalized := normalize_band red
  let green_normalized := normalize_band green
  let blue_normalized := normalize_band blue
  let rgb_image := stackRGB red_normalized green_normalized blue_normalized
  apply_brightness_gamma rgb_image 1.2 2.2

/-- The false-color rendering of one raster (loop body, lines 214-226):
read bands NIR=4, red=3, green=2, normalize each, stack directly —
no brightness scaling, clipping or gamma correction. -/
def falseColorRender (src : MultiBandRaster) : List Pix :=
  let nir := src.read 4
  let red := src.read 3
  let green := src.read 2
  stackRGB (normalize_band nir) (normalize_band red) (normalize_band green)

/-- The true-color composition exactly as the spec words it: read stack
positions red=3, green=2, blue=1, min-max normalize each independently,
stack into an RGB grid, then compute `clip(rgb * 1.2, 0, 1)` raised
elementwise to the power `1/2.2`. -/
noncomputable def trueColorSpecFormula (src : MultiBandRaster) : List PixR :=
  (stackRGB (normalize_band (src.read 3)) (normalize_band (src.read 2))
      (normalize_band (src.read 1))).map fun p =>
    (((clip01 (p.1 * 1.2) : ℚ) : ℝ) ^ ((1 : ℝ) / (2.2 : ℝ)),
     ((clip01 (p.2.1 * 1.2) : ℚ) : ℝ) ^ ((1 : ℝ) / (2.2 : ℝ)),
     ((clip01 (p.2.2 * 1.2) : ℚ) : ℝ) ^ ((1 : ℝ) / (2.2 : ℝ)))

/-- The false-color composition exactly as the spec words it: read stack
positions NIR=4, red=3, green=2, min-max normalize each independently, and
stack directly as RGB channels. -/
def falseColorSpecFormula (src : MultiBandRaster) : List Pix :=
  stackRGB (normalize_band (src.read 4)) (normalize_band (src.read 3))
    (normalize_band (src.read 2))

lemma clip01_nonneg (x : ℚ) : 0 ≤ clip01 x :=
  le_min (le_max_right _ _) zero_le_one

lemma clip01_le_one (x : ℚ) : clip01 x ≤ 1 := min_le_right _ _

lemma clip_rpow_bounds (q : ℚ) (e : ℝ) (he : 0 ≤ e) :
    0 ≤ ((clip01 q : ℚ) : ℝ) ^ e ∧ ((clip01 q : ℚ) : ℝ) ^ e ≤ 1 := by
  have h0 : (0 : ℝ) ≤ ((clip01 q : ℚ) : ℝ) := by exact_mod_cast clip01_nonneg q
  have h1 : ((clip01 q : ℚ) : ℝ) ≤ 1 := by exact_mod_cast clip01_le_one q
  exact ⟨Real.rpow_nonneg h0 e, Real.rpow_le_one h0 h1 he⟩

/-- **C1.** The true-color path computes exactly the composition the spec
states (read positions red=3, green=2, blue=1, normalize each, stack, then
`clip(rgb * 1.2, 0, 1) ^ (1/2.2)`), and every persisted channel value lies
in `[0, 1]` even though the brightness factor `1.2` can push intermediate
products above `1`. -/
theorem trueColor_matches_spec_and_bounded (src : MultiBandRaster) :
    trueColorRender src = trueColorSpecFormula src ∧
    ∀ p ∈ trueColorRender src,
      (0 ≤ p.1 ∧ p.1 ≤ 1) ∧ (0 ≤ p.2.1 ∧ p.2.1 ≤ 1) ∧ (0 ≤ p.2.2 ∧ p.2.2 ≤ 1) := by
  constructor
  · simp only [trueColorRender, trueColorSpecFormula, apply_brightness_gamma]
    norm_num
  · intro p hp
    have hp' : p ∈ (stackRGB (normalize_band (src.read 3))
        (normalize_band (src.read 2)) (normalize_band (src.read 1))).map
        (fun p : Pix =>
          ((((clip01 (p.1 * 1.2) : ℚ) : ℝ)) ^ ((1 : ℝ) / ((2.2 : ℚ) : ℝ)),
           (((clip01 (p.2.1 * 1.2) : ℚ) : ℝ)) ^ ((1 : ℝ) / ((2.2 : ℚ) : ℝ)),
           (((clip01 (p.2.2 * 1.2) : ℚ) : ℝ)) ^ ((1 : ℝ) / ((2.2 : ℚ) : ℝ)))) := hp
    obtain ⟨q, hq, rfl⟩ := List.mem_map.mp hp'
    have he : (0 : ℝ) ≤ (1 : ℝ) / ((2.2 : ℚ) : ℝ) := by positivity
    exact ⟨clip_rpow_bounds _ _ he, clip_rpow_bounds _ _ he, clip_rpow_bounds _ _ he⟩

/-- **C5.** The false-color path is exactly the composition the spec states
(read positions NIR=4, red=3, green=2, normalize each, stack directly), with
no brightness scaling, no clipping and no gamma correction; positions 4, 3, 2
resolve to the stacked `B8` (NIR), `B4` (red), `B3` (green) bands. -/
theorem falseColor_matches_spec (src : MultiBandRaster) :
    falseColorRender src = falseColorSpecFormula src ∧
    falseColorRender src =
      stackRGB (normalize_band src.band4) (normalize_band src.band3)
        (normalize_band src.band2) :=
  ⟨rfl, rfl⟩

/-- **C10.** With no explicit arguments `apply_brightness_gamma` uses its
declared defaults `brightness_factor=1, gamma=2` — clip to `[0,1]` and raise
to the power `1/2` — not the pipeline constants `1.2`/`2.2`; the renderer
gets the `1.2`/`2.2` behavior only because its call site passes them
explicitly, and the two parameterizations genuinely differ (e.g. at the
constant pixel `5/6`). -/
theorem apply_brightness_gamma_default_spec :
    (∀ img : List Pix, apply_brightness_gamma_default img =
      img.map fun p =>
        (((clip01 p.1 : ℚ) : ℝ) ^ ((1 : ℝ) / 2),
         ((clip01 p.2.1 : ℚ) : ℝ) ^ ((1 : ℝ) / 2),
         ((clip01 p.2.2 : ℚ) : ℝ) ^ ((1 : ℝ) / 2))) ∧
    (∀ src : MultiBandRaster, trueColorRender src =
      apply_brightness_gamma
        (stackRGB (normalize_band (src.read 3)) (normalize_band (src.read 2))
          (normalize_band (src.read 1))) 1.2 2.2) ∧
    apply_brightness_gamma_default [(5/6, 5/6, 5/6)] ≠
      apply_brightness_gamma [(5/6, 5/6, 5/6)] 1.2 2.2 := by
  refine ⟨?_, fun src => rfl, ?_⟩
  · intro img
    simp only [apply_brightness_gamma_default, apply_brightness_gamma, mul_one]
    norm_num
  · have hc1 : clip01 ((5/6 : ℚ) * 1) = 5/6 := by
      rw [clip01]
      rw [max_def, min_def]
      norm_num
    have hc2 : clip01 ((5/6 : ℚ) * 1.2) = 1 := by
      rw [clip01]
      rw [max_def, min_def]
      norm_num
    have hL : apply_brightness_gamma_default [(5/6, 5/6, 5/6)] =
        [(((5/6 : ℚ) : ℝ) ^ ((1 : ℝ) / 2), ((5/6 : ℚ) : ℝ) ^ ((1 : ℝ) / 2),
          ((5/6 : ℚ) : ℝ) ^ ((1 : ℝ) / 2))] := by
      simp only [apply_brightness_gamma_default, apply_brightness_gamma,
        List.map_cons, List.map_nil, hc1]
      norm_num
    have hR : apply_brightness_gamma [(5/6, 5/6, 5/6)] 1.2 2.2 =
        [((1 : ℝ), (1 : ℝ), (1 : ℝ))] := by
      simp only [apply_brightness_gamma, List.map_cons, List.map_nil, hc2]
      norm_num [Real.one_rpow]
    have hlt : ((5/6 : ℚ) : ℝ) ^ ((1 : ℝ) / 2) < 1 := by
      apply Real.rpow_lt_one
      · norm_num
      · norm_num
      · norm_num
    rw [hL, hR]
    intro h
    have h1 := (List.cons.injEq _ _ _ _).mp h
    have h2 := congrArg Prod.fst h1.1
    exact absurd h2 (ne_of_lt hlt)

/- ### The Band Compositor over an abstract directory listing -/

/-- One month subdirectory of `data/Sentinel`: its name and its directory
listing, each file paired with its single-band numeric contents. -/
structure MonthDir where
  name : String
  files : List (String × Band)
deriving DecidableEq

/-- The five required band files (line 92). -/
def bands : List String := ["B2.jp2", "B3.jp2", "B4.jp2", "B8.jp2", "B11.jp2"]

/-- `os.path.exists` for a band file inside a month directory. -/
def MonthDir.hasFile (m : MonthDir) (file : String) : Bool :=
  (m.files.lookup file).isSome

/-- `rasterio.open(band_path)` followed by `src.read(1)`: the band contents
of a file in the directory (missing files are modelled as `[]`; the loop
only reads files whose existence it has checked). -/
def MonthDir.readFile (m : MonthDir) (file : String) : Band :=
  (m.files.lookup file).getD []

/-- The body of the stacking loop (lines 104-130) for one month directory:
collect the band files that exist in fixed order, print a warning naming
each missing one; if any is missing, print a skip message and write no
raster; otherwise write `<month>.tif` with the five bands at stack
positions 1..5 in the fixed order `B2, B3, B4, B8, B11`.
Returns (rasters written, messages printed).  The model is a total
function, so the skip path raises no error and the loop always continues. -/
def processMonth (m : MonthDir) : List (String × MultiBandRaster) × List String :=
  let band_paths := bands.filter (fun b => m.hasFile b)
  let warns := (bands.filter (fun b => ! m.hasFile b)).map
    (fun b => "Warning: " ++ b ++ " not found in " ++ m.name)
  if band_paths.length ≠ bands.length then
    ([], warns ++ ["Skipping " ++ m.name ++ " due to missing bands"])
  else
    ([(m.name ++ ".tif",
        ⟨m.readFile "B2.jp2", m.readFile "B3.jp2", m.readFile "B4.jp2",
         m.readFile "B8.jp2", m.readFile "B11.jp2"⟩)],
     warns)

/-- The Band Compositor (lines 97-130) over the sorted listing of month
directories (entries that are not directories are skipped upstream at
line 101): all rasters written and all messages printed, in loop order. -/
def compositor (months : List MonthDir) :
    List (String × MultiBandRaster) × List String :=
  (months.flatMap (fun m => (processMonth m).1),
   months.flatMap (fun m => (processMonth m).2))

lemma length_filter_lt_of_mem_false (p : String → Bool) (l : List String)
    (b : String) (hb : b ∈ l) (hpb : p b = false) :
    (l.filter p).length < l.length := by
  induction l with
  | nil => cases hb
  | cons x xs ih =>
    rcases List.mem_cons.mp hb with h | h
    · subst h
      rw [List.filter_cons, hpb]
      simp only [Bool.false_eq_true, if_false, List.length_cons]
      exact Nat.lt_succ_of_le (List.length_filter_le p xs)
    · rw [List.filter_cons]
      by_cases hx : p x = true
      · rw [if_pos hx]
        simp only [List.length_cons]
        exact Nat.succ_lt_succ (ih h)
      · rw [if_neg hx]
        exact Nat.lt_succ_of_lt (ih h)

/-- **C4.** For every month directory missing at least one of the five
required band files, the Band Compositor writes no raster for that month,
prints a warning naming each absent band file, and continues with the
remaining month directories (the model is a total function, so no
unhandled error is possible). -/
theorem compositor_missing_band_skips (pre post : List MonthDir) (m : MonthDir)
    (hmiss : ∃ b ∈ bands, m.hasFile b = false) :
    (processMonth m).1 = [] ∧
    (∀ b ∈ bands, m.hasFile b = false →
      ("Warning: " ++ b ++ " not found in " ++ m.name) ∈ (processMonth m).2) ∧
    (compositor (pre ++ m :: post)).1 = (compositor pre).1 ++ (compositor post).1 := by
  obtain ⟨b0, hb0, hb0f⟩ := hmiss
  have hcond : (bands.filter (fun b => m.hasFile b)).length ≠ bands.length :=
    ne_of_lt (length_filter_lt_of_mem_false _ _ b0 hb0 hb0f)
  have hproc : processMonth m =
      ([], (bands.filter (fun b => ! m.hasFile b)).map
        (fun b => "Warning: " ++ b ++ " not found in " ++ m.name) ++
        ["Skipping " ++ m.name ++ " due to missing bands"]) := by
    simp only [processMonth]
    rw [if_pos hcond]
  refine ⟨by rw [hproc], ?_, ?_⟩
  · intro b hb hbf
    rw [hproc]
    apply List.mem_append_left
    exact List.mem_map.mpr ⟨b, List.mem_filter.mpr ⟨hb, by rw [hbf]; rfl⟩, rfl⟩
  · simp only [compositor, List.flatMap_append, List.flatMap_cons]
    rw [hproc]
    simp

/-- Witness for C4: a January directory holding only `B2, B3, B4, B8`
(missing `B11.jp2`), between two complete month directories. -/
theorem compositor_missing_band_skips_witness :
    (∃ b ∈ bands,
      MonthDir.hasFile
        ⟨"January", [("B2.jp2", [1]), ("B3.jp2", [2]), ("B4.jp2", [3]),
          ("B8.jp2", [4])]⟩ b = false) ∧
    ((processMonth ⟨"January", [("B2.jp2", [1]), ("B3.jp2", [2]),
        ("B4.jp2", [3]), ("B8.jp2", [4])]⟩).1 = [] ∧
    (∀ b ∈ bands,
      MonthDir.hasFile
        ⟨"January", [("B2.jp2", [1]), ("B3.jp2", [2]), ("B4.jp2", [3]),
          ("B8.jp2", [4])]⟩ b = false →
      ("Warning: " ++ b ++ " not found in " ++ "January") ∈
        (processMonth ⟨"January", [("B2.jp2", [1]), ("B3.jp2", [2]),
          ("B4.jp2", [3]), ("B8.jp2", [4])]⟩).2) ∧
    (compositor ([] ++ ⟨"January", [("B2.jp2", [1]), ("B3.jp2", [2]),
        ("B4.jp2", [3]), ("B8.jp2", [4])]⟩ ::
        [⟨"February", [("B2.jp2", [1]), ("B3.jp2", [2]), ("B4.jp2", [3]),
          ("B8.jp2", [4]), ("B11.jp2", [5])]⟩])).1 =
      (compositor []).1 ++
      (compositor [⟨"February", [("B2.jp2", [1]), ("B3.jp2", [2]),
        ("B4.jp2", [3]), ("B8.jp2", [4]), ("B11.jp2", [5])]⟩]).1) :=
  ⟨by decide,
    compositor_missing_band_skips []
      [⟨"February", [("B2.jp2", [1]), ("B3.jp2", [2]), ("B4.jp2", [3]),
        ("B8.jp2", [4]), ("B11.jp2", [5])]⟩]
      ⟨"January", [("B2.jp2", [1]), ("B3.jp2", [2]), ("B4.jp2", [3]),
        ("B8.jp2", [4])]⟩
      (by decide)⟩

/- ### Output file naming and the full pipeline -/

/-- Python `str.replace` on character lists: replace every non-overlapping
occurrence of `pattern` (left to right).  Structural recursion on a fuel
argument; fuel = length of the subject suffices, since every step consumes
at least one character. -/
def replaceChars (pattern repl : List Char) : ℕ → List Char → List Char
  | _, [] => []
  | 0, s => s
  | fuel + 1, c :: cs =>
    if pattern.isPrefixOf (c :: cs) ∧ pattern ≠ [] then
      repl ++ replaceChars pattern repl fuel ((c :: cs).drop pattern.length)
    else
      c :: replaceChars pattern repl fuel cs

/-- Python `tiff_file.replace(pattern, repl)`. -/
def pyReplace (s pattern repl : String) : String :=
  ⟨replaceChars pattern.data repl.data s.data.length s.data⟩

/-- `os.path.join(output_dir, tiff_file.replace(".tif", "_RGB.png"))` for
the true-color pass (lines 138, 160), with the POSIX separator. -/
def rgbOutputName (tiff_file : String) : String :=
  "./Results/RGB/" ++ pyReplace tiff_file ".tif" "_RGB.png"

/-- `os.path.join(output_dir, tiff_file.replace(".tif", "_FalseColor.png"))`
for the false-color pass (lines 198, 212). -/
def falseColorOutputName (tiff_file : String) : String :=
  "./Results/FalseColor/" ++ pyReplace tiff_file ".tif" "_FalseColor.png"

/-- The Composite Renderer applied to the stacked rasters: the true-color
loop (lines 157-189) and the false-color loop (lines 209-237) each produce
one named image per `.tif` file.  (The source re-lists `./Results` sorted
and keeps names ending in `.tif`; the raster list passed here is the
compositor output, already in that sorted order because the month listing
at line 98 is sorted, and the `RGB`/`FalseColor` subdirectory entries do
not end in `.tif` and are filtered out.) -/
noncomputable def renderAll (rasters : List (String × MultiBandRaster)) :
    List (String × List PixR) × List (String × List Pix) :=
  (rasters.map (fun r => (rgbOutputName r.1, trueColorRender r.2)),
   rasters.map (fun r => (falseColorOutputName r.1, falseColorRender r.2)))

/-- The whole pipeline of `RGB-NDSI.py`: Band Compositor, then Composite
Renderer on the rasters it wrote. -/
noncomputable def pipeline (months : List MonthDir) :
    List (String × List PixR) × List (String × List Pix) :=
  renderAll (compositor months).1

/-- The twelve calendar month names (App.py line 93); the stacking input
directories are named after them, so they are also the raster file stems. -/
def monthNames : List String :=
  ["January", "February", "March", "April", "May", "June", "July",
   "August", "September", "October", "November", "December"]

/-- **C9.** Every rendered month yields two images in the two per-kind
subdirectories, named `<MonthName>_RGB.png` and `<MonthName>_FalseColor.png`,
the month name being derived deterministically from the raster file name
(`<MonthName>.tif`). -/
theorem renderer_output_naming :
    (∀ rasters : List (String × MultiBandRaster),
      (renderAll rasters).1.map Prod.fst =
        rasters.map (fun r => rgbOutputName r.1) ∧
      (renderAll rasters).2.map Prod.fst =
        rasters.map (fun r => falseColorOutputName r.1)) ∧
    monthNames.map (fun m => rgbOutputName (m ++ ".tif")) =
      monthNames.map (fun m => "./Results/RGB/" ++ m ++ "_RGB.png") ∧
    monthNames.map (fun m => falseColorOutputName (m ++ ".tif")) =
      monthNames.map (fun m => "./Results/FalseColor/" ++ m ++ "_FalseColor.png") := by
  refine ⟨?_, by decide, by decide⟩
  intro rasters
  constructor <;> simp [renderAll]

/-- **C7.** The pipeline is deterministic: two runs of the embedded
compositor-then-renderer function on equal month listings produce
pixel-identical rasters and images. -/
theorem pipeline_deterministic (months1 months2 : List MonthDir)
    (h : months1 = months2) : pipeline months1 = pipeline months2 := by
  rw [h]

/-- Witness for C7 on a concrete one-month listing. -/
theorem pipeline_deterministic_witness :
    ([(⟨"April", [("B2.jp2", [0, 1]), ("B3.jp2", [1, 3]), ("B4.jp2", [2, 4]),
        ("B8.jp2", [0, 2]), ("B11.jp2", [5, 6])]⟩ : MonthDir)] =
      [⟨"April", [("B2.jp2", [0, 1]), ("B3.jp2", [1, 3]), ("B4.jp2", [2, 4]),
        ("B8.jp2", [0, 2]), ("B11.jp2", [5, 6])]⟩]) ∧
    pipeline [⟨"April", [("B2.jp2", [0, 1]), ("B3.jp2", [1, 3]),
        ("B4.jp2", [2, 4]), ("B8.jp2", [0, 2]), ("B11.jp2", [5, 6])]⟩] =
      pipeline [⟨"April", [("B2.jp2", [0, 1]), ("B3.jp2", [1, 3]),
        ("B4.jp2", [2, 4]), ("B8.jp2", [0, 2]), ("B11.jp2", [5, 6])]⟩] :=
  ⟨rfl, pipeline_deterministic _ _ rfl⟩

/- ### The Streamlit viewer (`App.py`) -/

/-- The viewer month resolution (App.py line 93): the Python month-name
list indexed by `month - 1`. -/
def viewerMonthName (month : ℕ) : String := monthNames.getD (month - 1) ""

/-- What `main` in App.py (lines 87-102) renders for one slider value: the
caption and, in two side-by-side columns, the two image files.  `st.image`
is called on a file path and displays the stored image as-is, so the model
carries only the two paths — the viewer applies no transformation to the
pixel data.  (The literal backslashes of the Python f-strings are kept.) -/
structure ViewerDisplay where
  selected : String
  col1Image : String
  col2Image : String
deriving DecidableEq

/-- `main` of App.py for a given slider value (the slider only produces
values 1-12). -/
def viewerMain (month : ℕ) : ViewerDisplay :=
  let month_name := viewerMonthName month
  { selected := "You selected: " ++ month_name
    col1Image := "Results\\RGB\\" ++ month_name ++ "_RGB.png"
    col2Image := "Results\\FalseColor\\" ++ month_name ++ "_FalseColor.png" }

/-- **C8.** For every slider value between 1 and 12 the viewer resolves it
to the calendar month name at that (1-indexed) position — 1 is January and
12 is December — and displays, side by side and untransformed, exactly the
month's two images from the fixed output layout: the RGB image and the
FalseColor image. -/
theorem viewer_resolves_month (month : ℕ) (h1 : 1 ≤ month) (h2 : month ≤ 12) :
    (∃ hm : month - 1 < monthNames.length,
      viewerMonthName month = monthNames.get ⟨month - 1, hm⟩) ∧
    viewerMain month =
      { selected := "You selected: " ++ viewerMonthName month
        col1Image := "Results\\RGB\\" ++ viewerMonthName month ++ "_RGB.png"
        col2Image := "Results\\FalseColor\\" ++ viewerMonthName month ++ "_FalseColor.png" } ∧
    viewerMonthName 1 = "January" ∧ viewerMonthName 12 = "December" := by
  have hm : month - 1 < monthNames.length := by
    simp only [monthNames, List.length_cons, List.length_nil]
    omega
  refine ⟨⟨hm, ?_⟩, rfl, rfl, rfl⟩
  rw [viewerMonthName, List.get_eq_getElem, List.getD_eq_getElem _ _ hm]

/-- Witness for C8 at slider value 4 (April). -/
theorem viewer_resolves_month_witness :
    (1 ≤ 4 ∧ 4 ≤ 12) ∧
    ((∃ hm : 4 - 1 < monthNames.length,
      viewerMonthName 4 = monthNames.get ⟨4 - 1, hm⟩) ∧
    viewerMain 4 =
      { selected := "You selected: " ++ viewerMonthName 4
        col1Image := "Results\\RGB\\" ++ viewerMonthName 4 ++ "_RGB.png"
        col2Image := "Results\\FalseColor\\" ++ viewerMonthName 4 ++ "_FalseColor.png" } ∧
    viewerMonthName 1 = "January" ∧ viewerMonthName 12 = "December") :=
  ⟨⟨by decide, by decide⟩, viewer_resolves_month 4 (by decide) (by decide)⟩

end RGBNDSI
